import Mathlib

/-!
Shallow embedding of `src/main.py` (a Salesforce → Jira Service Management
reconciliation lambda) and proofs about it.

Modelling conventions:
* HTTP traffic is modelled by explicit response oracles passed to each
  function; every function additionally returns the trace of network calls
  it makes (as a `List Call`), and the retrying update functions also
  return the list of `time.sleep` durations (in seconds, as rationals).
* Python string truthiness (`if not value`), `str.strip()`, `str.lower()`
  and the substring operator `in` are embedded by executable character-list
  functions (`truthyStr`, `pyStrip`, `pyLower`, `strContains`) so that all
  definitions evaluate inside the kernel.
* Optional JSON fields are `Option` values; `dict.get(k, d)` is `Option.getD`.
-/

/-- Python truthiness of an optional string: `None` and `""` are falsy. -/
def truthyStr : Option String → Bool
  | none => false
  | some s => !(s == "")

/-- `s or d` on Python strings: keep `s` when truthy, else `d`. -/
def pyOr (a : Option String) (d : String) : String :=
  match a with
  | none => d
  | some s => if s == "" then d else s

/-- Strip the characters satisfying `Char.isWhitespace` from both ends,
as Python `str.strip()` does (restricted to ASCII whitespace). -/
def stripChars (l : List Char) : List Char :=
  ((l.dropWhile Char.isWhitespace).reverse.dropWhile Char.isWhitespace).reverse

/-- Python `str.strip()`. -/
def pyStrip (s : String) : String := ⟨stripChars s.data⟩

/-- ASCII lowering of one character, as `str.lower()` does on ASCII input. -/
def lowerChar (c : Char) : Char :=
  if 'A' ≤ c ∧ c ≤ 'Z' then Char.ofNat (c.toNat + 32) else c

/-- Python `str.lower()` (ASCII). -/
def pyLower (s : String) : String := ⟨s.data.map lowerChar⟩

/-- Does `pat` occur at the start of `l`? -/
def startsWithChars : List Char → List Char → Bool
  | [], _ => true
  | _ :: _, [] => false
  | a :: ps, b :: ss => a == b && startsWithChars ps ss

/-- Does `pat` occur as a contiguous substring of `s`?  (Python `pat in s`.) -/
def containsSub (pat : List Char) : List Char → Bool
  | [] => startsWithChars pat []
  | a :: t => startsWithChars pat (a :: t) || containsSub pat t

/-- Python substring test `pat in s` on strings. -/
def strContains (s pat : String) : Bool := containsSub pat.data s.data

/-- One network call made by the program (the request-identifying data). -/
inductive Call
  | createOrg (name : String)
  | listOrgs (start limit : Nat)
  | linkDesk (key orgId : String)
  | searchUser (email : String)
  | createCustomer (name email : String)
  | addUsersToOrg (orgId : String) (ids : List String)
  | orgDetail (orgId fieldName : String)
  | custDetail (custId fieldName : String)
  | contactsQuery (accountId : String)
deriving DecidableEq

/-- Outcome of one HTTP attempt: a status code, or a transport-level
exception (the `except Exception` branch of the update loops). -/
inductive HttpOutcome
  | status (code : Nat)
  | exn (msg : String)
deriving DecidableEq

/-- Response to `POST /organization` in `create_org`: status code and the
`id` field of the JSON body (`r.json().get("id")`). -/
structure CreateOrgResp where
  status : Nat
  id : Option String
deriving DecidableEq

/-- One entry of the paginated organization listing. -/
structure OrgEntry where
  id : String
  name : String
deriving DecidableEq

/-- One page of `GET /organization`: `values`, `isLastPage` (defaulting to
true when absent), and the echoed `start`/`limit` used to advance. -/
structure OrgPage where
  values : List OrgEntry
  isLastPage : Bool
  start : Nat
  limit : Nat
deriving DecidableEq

/-- The pagination loop of `find_org_id`: `pages` is the sequence of
responses the server returns to the successive `GET /organization`
requests; `reqStart` is the `start` parameter of the next request (the
`limit` parameter is always 50 in the source). -/
def findOrgGo (name : String) (reqStart : Nat) :
    List OrgPage → Option String × List Call
  | [] => (none, [])
  | page :: rest =>
    match page.values.find? (fun org => org.name == name) with
    | some org => (some org.id, [Call.listOrgs reqStart 50])
    | none =>
      if page.isLastPage then (none, [Call.listOrgs reqStart 50])
      else
        let r := findOrgGo name (page.start + page.limit) rest
        (r.1, Call.listOrgs reqStart 50 :: r.2)

/-- `find_org_id(name)`: strip the name, then paginate the organization
listing from `start = 0` with `limit = 50`, returning the id of the first
case-sensitively matching entry, else `None`. -/
def find_org_id (name : String) (pages : List OrgPage) : Option String × List Call :=
  findOrgGo (pyStrip name) 0 pages

/-- `create_org(name)`: strip the name and POST it; 201 returns the body
id; 400/409 falls back to `find_org_id` (a falsy search result yields
`None`); any other status yields `None`. -/
def create_org (name : String) (resp : CreateOrgResp) (pages : List OrgPage) :
    Option String × List Call :=
  let name := pyStrip name
  if resp.status = 201 then (resp.id, [Call.createOrg name])
  else if resp.status = 400 ∨ resp.status = 409 then
    let f := find_org_id name pages
    (if truthyStr f.1 then f.1 else none, Call.createOrg name :: f.2)
  else (none, [Call.createOrg name])

/-- The fixed `SERVICE_DESK_KEYS` configuration. -/
def SERVICE_DESK_KEYS : List String := ["MOBILE", "ERT", "SNDBX"]

/-- `link_org_to_service_desks(org_id)`: one POST per configured desk key;
response statuses only influence a warning log, never the behaviour. -/
def link_org_to_service_desks (orgId : String) : List Call :=
  SERVICE_DESK_KEYS.map (fun key => Call.linkDesk key orgId)

/-- One element of the `GET /user/search` result array, with the optional
`emailAddress` (read via `u.get("emailAddress", "")`) and `accountId`. -/
structure JUser where
  emailAddress : Option String
  accountId : Option String
deriving DecidableEq

/-- Does `u`'s email match `email` exactly after case-insensitive folding
(`u.get("emailAddress", "").lower() == email.lower()`)? -/
def emailMatches (email : String) (u : JUser) : Bool :=
  pyLower (u.emailAddress.getD "") == pyLower email

/-- `search_jira_user(email)`: `resp = none` models `not r.ok` (return
`None`); otherwise scan the result array and return the `accountId` of the
first user whose email matches case-insensitively. -/
def search_jira_user (email : String) (resp : Option (List JUser)) :
    Option String × List Call :=
  (match resp with
   | none => none
   | some users =>
     match users.find? (emailMatches email) with
     | some u => u.accountId
     | none => none,
   [Call.searchUser email])

/-- Response to `POST /customer`: status and the body `accountId`. -/
structure CustCreateResp where
  status : Nat
  accountId : Option String
deriving DecidableEq

/-- `create_jira_customer(name, email)`: 201 returns the body `accountId`;
400/409 falls back to `search_jira_user`; anything else returns `None`. -/
def create_jira_customer (name email : String) (resp : CustCreateResp)
    (searchResp : Option (List JUser)) : Option String × List Call :=
  if resp.status = 201 then (resp.accountId, [Call.createCustomer name email])
  else if resp.status = 400 ∨ resp.status = 409 then
    let s := search_jira_user email searchResp
    (s.1, Call.createCustomer name email :: s.2)
  else (none, [Call.createCustomer name email])

/-- `add_users_to_org(org_id, ids)`: no call when `ids` is falsy (empty);
otherwise exactly one POST.  The response (`respStatus`) is never read. -/
def add_users_to_org (orgId : String) (ids : List String) (respStatus : Nat) :
    List Call :=
  if ids.isEmpty then [] else [Call.addUsersToOrg orgId ids]

/-- Is an attempt outcome one the update loops retry after (404, 429, or a
transport exception)?  Any other status breaks out of the loop. -/
def retryable : HttpOutcome → Bool
  | .status c => c == 404 || c == 429
  | .exn _ => true

/-- The sleep (seconds) `update_org_detail_field` performs after a
retryable outcome at attempt number `attempt`. -/
def orgRetrySleep (o : HttpOutcome) (attempt : Nat) : ℚ :=
  match o with
  | .status c => if c = 404 then (attempt : ℚ) * 1.5 else 5
  | .exn _ => 1

/-- The sleep (seconds) `update_customer_detail_field` performs after a
retryable outcome at attempt number `attempt`. -/
def custRetrySleep (o : HttpOutcome) (attempt : Nat) : ℚ :=
  match o with
  | .status c => if c = 404 then (attempt : ℚ) * 2 else 5
  | .exn _ => 1

/-- The retry loop of `update_org_detail_field` (`for attempt in
range(1, 4)`): `resp` maps the attempt number to that attempt's outcome,
`attempt` is the current attempt number, `remaining` the attempts left.
Returns (success, PUT calls made, sleeps performed). -/
def orgUpdateGo (orgId fieldName : String) (resp : Nat → HttpOutcome) :
    Nat → Nat → Bool × List Call × List ℚ
  | _, 0 => (false, [], [])
  | attempt, remaining + 1 =>
    let c := Call.orgDetail orgId fieldName
    match resp attempt with
    | .status code =>
      if code = 200 then (true, [c], [])
      else if code = 404 then
        let r := orgUpdateGo orgId fieldName resp (attempt + 1) remaining
        (r.1, c :: r.2.1, ((attempt : ℚ) * 1.5) :: r.2.2)
      else if code = 429 then
        let r := orgUpdateGo orgId fieldName resp (attempt + 1) remaining
        (r.1, c :: r.2.1, (5 : ℚ) :: r.2.2)
      else (false, [c], [])
    | .exn _ =>
      let r := orgUpdateGo orgId fieldName resp (attempt + 1) remaining
      (r.1, c :: r.2.1, (1 : ℚ) :: r.2.2)

/-- `update_org_detail_field(org_id, field_name, value)`: falsy value is an
immediate `False` with no calls; otherwise sleep 1s, then up to 3 attempts
(200 → `True`; 404 → sleep `attempt * 1.5`, retry; 429 → sleep 5, retry;
exception → sleep 1, retry; other status → break), else `False`. -/
def update_org_detail_field (orgId fieldName : String) (value : Option String)
    (resp : Nat → HttpOutcome) : Bool × List Call × List ℚ :=
  if truthyStr value = false then (false, [], [])
  else
    let r := orgUpdateGo orgId fieldName resp 1 3
    (r.1, r.2.1, (1 : ℚ) :: r.2.2)

/-- The retry loop of `update_customer_detail_field` (`max_retries = 5`). -/
def custUpdateGo (custId fieldName : String) (resp : Nat → HttpOutcome) :
    Nat → Nat → Bool × List Call × List ℚ
  | _, 0 => (false, [], [])
  | attempt, remaining + 1 =>
    let c := Call.custDetail custId fieldName
    match resp attempt with
    | .status code =>
      if code = 200 then (true, [c], [])
      else if code = 404 then
        let r := custUpdateGo custId fieldName resp (attempt + 1) remaining
        (r.1, c :: r.2.1, ((attempt : ℚ) * 2) :: r.2.2)
      else if code = 429 then
        let r := custUpdateGo custId fieldName resp (attempt + 1) remaining
        (r.1, c :: r.2.1, (5 : ℚ) :: r.2.2)
      else (false, [c], [])
    | .exn _ =>
      let r := custUpdateGo custId fieldName resp (attempt + 1) remaining
      (r.1, c :: r.2.1, (1 : ℚ) :: r.2.2)

/-- `update_customer_detail_field(account_id, field_name, value)`: falsy
value is an immediate `False` with no calls; otherwise sleep 0.5s, then up
to 5 attempts (200 → `True`; 404 → sleep `attempt * 2`, retry; 429 → sleep
5, retry; exception → sleep 1, retry; other status → break), else `False`. -/
def update_customer_detail_field (custId fieldName : String) (value : Option String)
    (resp : Nat → HttpOutcome) : Bool × List Call × List ℚ :=
  if truthyStr value = false then (false, [], [])
  else
    let r := custUpdateGo custId fieldName resp 1 5
    (r.1, r.2.1, (0.5 : ℚ) :: r.2.2)

/-- The role-priority logic of `process_single_account`, applied to the
lowercased concatenation of the two role-indicator fields: "authorized
signatory" wins over "authorized representative"; neither → skip. -/
def selectRole (combined : String) : Option String :=
  if strContains combined "authorized signatory" then some "Authorized Signatory"
  else if strContains combined "authorized representative" then
    some "Authorized Representative"
  else none

/-- The `Owner` sub-record of a Salesforce account. -/
structure SfOwner where
  Name : Option String
deriving DecidableEq

/-- A Salesforce account record as consumed by `process_single_account`
(`Id` and `Name` are accessed unconditionally, the rest via `.get`). -/
structure Account where
  Id : String
  Name : String
  Industry : Option String
  B2B_Full_Address_2__c : Option String
  Owner : Option SfOwner
  B2B_Cluster__c : Option String
  B2B_Area__c : Option String
deriving DecidableEq

/-- A contact record as produced by `get_account_contacts` (all fields
read via `.get`). -/
structure Contact where
  Name : Option String
  Email : Option String
  Phone : Option String
  MobilePhone : Option String
  Position__c : Option String
  Contact_Role__c : Option String
deriving DecidableEq

/-- The platform's responses to every call one account's pipeline can
make: organization creation/listing, per-field org update outcomes
(field name, attempt number), the contact fetch (`Except` models the
exception `soql` raises on a non-ok response, caught at the account
boundary), per-email customer creation and user search, per-customer
per-field update outcomes, and the ignored attach status. -/
structure AccountEnv where
  createResp : CreateOrgResp
  orgPages : List OrgPage
  orgFieldResp : String → Nat → HttpOutcome
  contactsFetch : Except String (List Contact)
  custCreateResp : String → CustCreateResp
  custSearchResp : String → Option (List JUser)
  custFieldResp : String → String → Nat → HttpOutcome
  attachStatus : Nat

/-- The body of `process_single_account`'s contact loop for one contact:
returns the calls made and the resolved customer id accumulated into
`account_ids` (if any). -/
def processContact (env : AccountEnv) (c : Contact) : List Call × Option String :=
  let email := pyStrip (c.Email.getD "")
  let name := pyStrip (c.Name.getD "")
  let phone := pyStrip (pyOr c.MobilePhone (pyOr c.Phone ""))
  let combined := pyLower ((c.Position__c.getD "") ++ " " ++ (c.Contact_Role__c.getD ""))
  if email == "" then ([], none)
  else
    match selectRole combined with
    | none => ([], none)
    | some finalRole =>
      let cr := create_jira_customer name email (env.custCreateResp email)
        (env.custSearchResp email)
      if truthyStr cr.1 = false then (cr.2, none)
      else
        let aid := cr.1.getD ""
        let u1 := update_customer_detail_field aid "ROLE" (some finalRole)
          (env.custFieldResp aid "ROLE")
        let u2 := update_customer_detail_field aid "Mobile Number" (some phone)
          (env.custFieldResp aid "Mobile Number")
        let u3 := update_customer_detail_field aid "Full Name" (some name)
          (env.custFieldResp aid "Full Name")
        let u4 := update_customer_detail_field aid "Email Address" (some email)
          (env.custFieldResp aid "Email Address")
        (cr.2 ++ u1.2.1 ++ u2.2.1 ++ u3.2.1 ++ u4.2.1, cr.1)

/-- The contact loop: calls made and the accumulated `account_ids`. -/
def processContacts (env : AccountEnv) : List Contact → List Call × List String
  | [] => ([], [])
  | c :: rest =>
    let r := processContact env c
    let rs := processContacts env rest
    (r.1 ++ rs.1, match r.2 with | some i => i :: rs.2 | none => rs.2)

/-- The list of org detail-field updates `process_single_account` pushes
(in source order), with the `Owner`-guarded "Account Manager" field. -/
def orgFieldCalls (env : AccountEnv) (orgId : String) (acc : Account) : List Call :=
  (update_org_detail_field orgId "Salesforce Account Id" (some acc.Id)
    (env.orgFieldResp "Salesforce Account Id")).2.1 ++
  (update_org_detail_field orgId "Company Name" (some acc.Name)
    (env.orgFieldResp "Company Name")).2.1 ++
  (update_org_detail_field orgId "Company Address" acc.B2B_Full_Address_2__c
    (env.orgFieldResp "Company Address")).2.1 ++
  (update_org_detail_field orgId "Industry" acc.Industry
    (env.orgFieldResp "Industry")).2.1 ++
  (update_org_detail_field orgId "Customer Type" (some "Customer")
    (env.orgFieldResp "Customer Type")).2.1 ++
  (match acc.Owner with
   | some o =>
     if truthyStr o.Name then
       (update_org_detail_field orgId "Account Manager" o.Name
         (env.orgFieldResp "Account Manager")).2.1
     else []
   | none => []) ++
  (update_org_detail_field orgId "Sales Cluster" acc.B2B_Cluster__c
    (env.orgFieldResp "Sales Cluster")).2.1 ++
  (update_org_detail_field orgId "Sales Area" acc.B2B_Area__c
    (env.orgFieldResp "Sales Area")).2.1

/-- `process_single_account(acc, ...)`: resolve the organization (falsy
result → stop), link desks, push org fields, fetch contacts (an exception
there is caught at the account boundary, keeping the calls already made),
run the contact loop, attach the accumulated customers.  Returns the trace
of network calls for this account. -/
def process_single_account (acc : Account) (env : AccountEnv) : List Call :=
  let co := create_org acc.Name env.createResp env.orgPages
  if truthyStr co.1 = false then co.2
  else
    let orgId := co.1.getD ""
    let linkCalls := link_org_to_service_desks orgId
    let updCalls := orgFieldCalls env orgId acc
    match env.contactsFetch with
    | .error _ => co.2 ++ linkCalls ++ updCalls ++ [Call.contactsQuery acc.Id]
    | .ok contacts =>
      let pc := processContacts env contacts
      co.2 ++ linkCalls ++ updCalls ++ [Call.contactsQuery acc.Id] ++ pc.1 ++
        add_users_to_org orgId pc.2 env.attachStatus

/-- The structured result `lambda_handler` returns. -/
inductive LambdaResult
  | ok (accounts_processed : Nat)
  | error (message : String)
deriving DecidableEq

/-- `lambda_handler(event, context)`: a failure obtaining the token or the
changed-account set (the `Except.error` cases, Python exceptions) yields
the structured error result; otherwise every fetched account is processed
in order and `{"status": "ok", "accounts_processed": len(accounts)}` is
returned.  Each account comes with the platform responses (`AccountEnv`)
its pipeline will see. -/
def lambda_handler (tokenRes : Except String (String × String))
    (accountsRes : Except String (List (Account × AccountEnv))) :
    LambdaResult × List Call :=
  match tokenRes with
  | .error e => (.error e, [])
  | .ok _ =>
    match accountsRes with
    | .error e => (.error e, [])
    | .ok accs =>
      (.ok accs.length, (accs.map (fun p => process_single_account p.1 p.2)).flatten)

/-- Is a call the organization-creation POST? -/
def isCreateOrgCall : Call → Bool
  | .createOrg _ => true
  | _ => false

/-- Is a call part of organization resolution (creation or listing)? -/
def isOrgResolutionCall : Call → Bool
  | .createOrg _ => true
  | .listOrgs _ _ => true
  | _ => false

/-- A platform environment used by concrete witnesses. -/
def witEnv : AccountEnv :=
  ⟨⟨201, some "O"⟩, [], fun _ _ => HttpOutcome.status 200, Except.ok [],
   fun _ => ⟨201, some "A"⟩, fun _ => none, fun _ _ _ => HttpOutcome.status 200, 204⟩

/-- A platform environment whose organization creation fails outright. -/
def witFailEnv : AccountEnv :=
  ⟨⟨500, none⟩, [], fun _ _ => HttpOutcome.status 200, Except.ok [],
   fun _ => ⟨201, some "A"⟩, fun _ => none, fun _ _ _ => HttpOutcome.status 200, 204⟩

/-- The account record used by concrete witnesses. -/
def witAcc : Account := ⟨"001", "Acme", none, none, none, none, none⟩

theorem dropWhile_reverse_dropWhile (p : Char → Bool) (m : List Char)
    (hm : m.dropWhile p = m) :
    ((m.reverse.dropWhile p).reverse).dropWhile p = (m.reverse.dropWhile p).reverse := by
  rcases hr : (m.reverse.dropWhile p).reverse with _ | ⟨a, t⟩
  · simp
  · have hpre : (m.reverse.dropWhile p).reverse <+: m := by
      have hsuf : m.reverse.dropWhile p <:+ m.reverse := List.dropWhile_suffix p
      have := List.reverse_prefix.mpr hsuf
      simpa using this
    rw [hr] at hpre
    obtain ⟨u, hu⟩ := hpre
    have hpa : ¬ p a = true := by
      intro hpa
      rw [← hu, List.cons_append] at hm
      rw [List.dropWhile_cons_of_pos hpa] at hm
      have hlen := congrArg List.length hm
      have hle := (List.dropWhile_sublist (l := t ++ u) p).length_le
      simp at hlen hle
      omega
    simp [List.dropWhile_cons_of_neg hpa]

theorem dropWhile_stripChars (l : List Char) :
    (stripChars l).dropWhile Char.isWhitespace = stripChars l := by
  rw [stripChars]
  exact dropWhile_reverse_dropWhile _ _ (List.dropWhile_idempotent _ _)

theorem stripChars_idem (l : List Char) : stripChars (stripChars l) = stripChars l := by
  conv_lhs => rw [stripChars]
  rw [dropWhile_stripChars]
  rw [show (stripChars l).reverse
      = (l.dropWhile Char.isWhitespace).reverse.dropWhile Char.isWhitespace from by
    rw [stripChars]; simp]
  rw [List.dropWhile_idempotent]
  rw [stripChars]

theorem pyStrip_idem (s : String) : pyStrip (pyStrip s) = pyStrip s := by
  simp [pyStrip, stripChars_idem]

example : pyStrip "  a b  " = "a b" := by decide
example : pyLower "AbC z" = "abc z" := by decide
example : strContains "xauthorized signatoryy" "authorized signatory" = true := by decide
example : truthyStr (some "") = false := by decide

theorem findOrgGo_calls_listOrgs (nm : String) :
    ∀ (pages : List OrgPage) (s : Nat) (call : Call),
      call ∈ (findOrgGo nm s pages).2 → ∃ st, call = Call.listOrgs st 50 := by
  intro pages
  induction pages with
  | nil => intro s call h; simp [findOrgGo] at h
  | cons p rest ih =>
    intro s call h
    cases hf : p.values.find? (fun org => org.name == nm) with
    | some org =>
      simp [findOrgGo, hf] at h
      exact ⟨s, h⟩
    | none =>
      cases hl : p.isLastPage with
      | true =>
        simp [findOrgGo, hf, hl] at h
        exact ⟨s, h⟩
      | false =>
        simp [findOrgGo, hf, hl] at h
        rcases h with h | h
        · exact ⟨s, h⟩
        · exact ih _ _ h

theorem findOrgGo_some (nm : String) :
    ∀ (pages : List OrgPage) (s : Nat) (oid : String),
      (findOrgGo nm s pages).1 = some oid →
      ∃ p ∈ pages, ∃ e ∈ p.values, e.name = nm ∧ e.id = oid := by
  intro pages
  induction pages with
  | nil => intro s oid h; simp [findOrgGo] at h
  | cons p rest ih =>
    intro s oid h
    cases hf : p.values.find? (fun org => org.name == nm) with
    | some org =>
      simp [findOrgGo, hf] at h
      refine ⟨p, List.mem_cons_self p rest, org, List.mem_of_find?_eq_some hf, ?_, h⟩
      have := List.find?_some hf
      simpa using this
    | none =>
      cases hl : p.isLastPage with
      | true => simp [findOrgGo, hf, hl] at h
      | false =>
        simp [findOrgGo, hf, hl] at h
        obtain ⟨q, hq, e, he, hname, hid⟩ := ih _ _ h
        exact ⟨q, List.mem_cons_of_mem p hq, e, he, hname, hid⟩

theorem findOrgGo_none (nm : String) :
    ∀ (pages : List OrgPage) (s : Nat),
      (∀ p ∈ pages, ∀ e ∈ p.values, e.name ≠ nm) →
      (findOrgGo nm s pages).1 = none := by
  intro pages
  induction pages with
  | nil => intro s _; simp [findOrgGo]
  | cons p rest ih =>
    intro s hno
    have hf : p.values.find? (fun org => org.name == nm) = none := by
      rw [List.find?_eq_none]
      intro e he
      simpa using hno p (List.mem_cons_self p rest) e he
    cases hl : p.isLastPage with
    | true => simp [findOrgGo, hf, hl]
    | false =>
      simp [findOrgGo, hf, hl]
      exact ih _ (fun q hq => hno q (List.mem_cons_of_mem p hq))

/-- **C1.** `resolve_organization` (`create_org`): a 201 returns the body
identifier; a 400/409 conflict falls back to paginating the listing with
page size 50 until a case-sensitive exact match on the stripped name is
found (returning its id) or the pages run out (returning `None` when no
page contains a match); exactly one creation POST is ever issued, so a
conflicting name is resolved by search, never by a second creation. -/
theorem org_resolution_spec (nm : String) (resp : CreateOrgResp) (pages : List OrgPage) :
    (resp.status = 201 →
      create_org nm resp pages = (resp.id, [Call.createOrg (pyStrip nm)])) ∧
    (resp.status = 400 ∨ resp.status = 409 →
      (create_org nm resp pages).2 = Call.createOrg (pyStrip nm) :: (find_org_id nm pages).2 ∧
      (∀ st l, Call.listOrgs st l ∈ (find_org_id nm pages).2 → l = 50) ∧
      (∀ oid, (find_org_id nm pages).1 = some oid →
        ∃ p ∈ pages, ∃ e ∈ p.values, e.name = pyStrip nm ∧ e.id = oid) ∧
      ((∀ p ∈ pages, ∀ e ∈ p.values, e.name ≠ pyStrip nm) →
        (find_org_id nm pages).1 = none ∧ (create_org nm resp pages).1 = none) ∧
      (∀ oid, (find_org_id nm pages).1 = some oid → oid ≠ "" →
        (create_org nm resp pages).1 = some oid)) ∧
    (create_org nm resp pages).2.countP isCreateOrgCall = 1 := by
  have hfind_calls : ∀ call ∈ (find_org_id nm pages).2, ∃ st, call = Call.listOrgs st 50 :=
    fun call h => findOrgGo_calls_listOrgs _ _ _ _ h
  refine ⟨?_, ?_, ?_⟩
  · intro h201
    simp [create_org, h201]
  · intro hconf
    have h201 : ¬ resp.status = 201 := by rcases hconf with h | h <;> omega
    refine ⟨?_, ?_, ?_, ?_, ?_⟩
    · simp [create_org, h201, hconf, find_org_id, pyStrip_idem]
    · intro st l h
      obtain ⟨st2, heq⟩ := hfind_calls _ h
      cases heq
      rfl
    · intro oid h
      exact findOrgGo_some _ _ _ _ h
    · intro hno
      have hnone : (find_org_id nm pages).1 = none := findOrgGo_none _ _ _ hno
      refine ⟨hnone, ?_⟩
      rw [find_org_id] at hnone
      simp [create_org, h201, hconf, find_org_id, pyStrip_idem, hnone, truthyStr]
    · intro oid h hne
      have hb : (oid == "") = false := by simpa using hne
      rw [find_org_id] at h
      simp [create_org, h201, hconf, find_org_id, pyStrip_idem, h, truthyStr, hb]
  · by_cases h201 : resp.status = 201
    · simp [create_org, h201, isCreateOrgCall]
    · by_cases hconf : resp.status = 400 ∨ resp.status = 409
      · have hzero : (find_org_id nm pages).2.countP isCreateOrgCall = 0 := by
          rw [List.countP_eq_zero]
          intro call h
          obtain ⟨st, heq⟩ := hfind_calls _ h
          subst heq
          simp [isCreateOrgCall]
        have htrace : (create_org nm resp pages).2
            = Call.createOrg (pyStrip nm) :: (find_org_id nm pages).2 := by
          simp [create_org, h201, hconf, find_org_id, pyStrip_idem]
        rw [htrace, List.countP_cons, hzero]
        simp [isCreateOrgCall]
      · simp [create_org, h201, hconf, isCreateOrgCall]

/-- **C9.** Organization resolution normalises the name by stripping
surrounding whitespace before both creation and the fallback search:
resolving a name and resolving its stripped form are indistinguishable,
and the fallback matches listing entries against the stripped name. -/
theorem org_name_normalized (nm : String) (resp : CreateOrgResp)
    (pages : List OrgPage) (e : OrgEntry) :
    create_org nm resp pages = create_org (pyStrip nm) resp pages ∧
    find_org_id nm pages = find_org_id (pyStrip nm) pages ∧
    ((find_org_id nm [⟨[e], true, 0, 50⟩]).1 = some e.id ↔ e.name = pyStrip nm) := by
  refine ⟨?_, ?_, ?_⟩
  · simp [create_org, find_org_id, pyStrip_idem]
  · simp [find_org_id, pyStrip_idem]
  · constructor
    · intro h
      by_cases hb : e.name == pyStrip nm
      · exact eq_of_beq hb
      · exfalso
        simp [find_org_id, findOrgGo, List.find?, hb] at h
    · intro h
      simp [find_org_id, findOrgGo, List.find?, h]

/-- Witness for C1: a 201 creation response returns the new identifier. -/
theorem org_resolution_spec_witness :
    (⟨201, some "7"⟩ : CreateOrgResp).status = 201 ∧
    create_org "Acme" ⟨201, some "7"⟩ [] = (some "7", [Call.createOrg (pyStrip "Acme")]) :=
  ⟨rfl, (org_resolution_spec "Acme" ⟨201, some "7"⟩ []).1 rfl⟩

/-- Witness for C9: resolving a padded name equals resolving its strip. -/
theorem org_name_normalized_witness :
    create_org " Acme " ⟨201, none⟩ [] = create_org (pyStrip " Acme ") ⟨201, none⟩ [] :=
  (org_name_normalized " Acme " ⟨201, none⟩ [] ⟨"1", "Acme"⟩).1

/-- **C3.** When the lowercased concatenation of the two role-indicator
fields contains both the "authorized signatory" and the "authorized
representative" substrings, the selected role is "Authorized Signatory",
never "Authorized Representative". -/
theorem role_priority_spec (p r : String)
    (h1 : strContains (pyLower (p ++ " " ++ r)) "authorized signatory" = true)
    (h2 : strContains (pyLower (p ++ " " ++ r)) "authorized representative" = true) :
    selectRole (pyLower (p ++ " " ++ r)) = some "Authorized Signatory" ∧
    selectRole (pyLower (p ++ " " ++ r)) ≠ some "Authorized Representative" := by
  constructor <;> simp [selectRole, h1]

/-- Witness for C3 at a contact text carrying both phrases. -/
theorem role_priority_spec_witness :
    strContains (pyLower ("Authorized Signatory" ++ " " ++ "Authorized Representative"))
      "authorized signatory" = true ∧
    strContains (pyLower ("Authorized Signatory" ++ " " ++ "Authorized Representative"))
      "authorized representative" = true ∧
    (selectRole (pyLower ("Authorized Signatory" ++ " " ++ "Authorized Representative"))
      = some "Authorized Signatory" ∧
     selectRole (pyLower ("Authorized Signatory" ++ " " ++ "Authorized Representative"))
      ≠ some "Authorized Representative") :=
  ⟨by decide, by decide,
   role_priority_spec "Authorized Signatory" "Authorized Representative" (by decide) (by decide)⟩

/-- **C4.** A falsy (absent/empty) value makes both detail-field setters
return `False` with zero network calls (and zero sleeps). -/
theorem empty_value_noop (oid cid f g : String) (v : Option String)
    (ro rc : Nat → HttpOutcome) (hv : truthyStr v = false) :
    update_org_detail_field oid f v ro = (false, [], []) ∧
    update_customer_detail_field cid g v rc = (false, [], []) := by
  constructor <;> simp [update_org_detail_field, update_customer_detail_field, hv]

/-- Witness for C4 with an absent value. -/
theorem empty_value_noop_witness :
    truthyStr none = false ∧
    (update_org_detail_field "o" "f" none (fun _ => HttpOutcome.status 200) = (false, [], []) ∧
     update_customer_detail_field "c" "g" none (fun _ => HttpOutcome.status 200) = (false, [], [])) :=
  ⟨by decide,
   empty_value_noop "o" "c" "f" "g" none (fun _ => HttpOutcome.status 200)
     (fun _ => HttpOutcome.status 200) (by decide)⟩

/-- **C5.** `resolve_customer` (`create_jira_customer`): a 201 returns the
new identity; a 400/409 conflict falls back to the email directory search,
whose result is the first exact case-insensitive email match's accountId,
`None` when nothing matches or the search itself failed; every other
creation status is a soft `None` — the function is total, never an
exception. -/
theorem cust_resolution_spec (nm email : String) (resp : CustCreateResp)
    (searchResp : Option (List JUser)) :
    (resp.status = 201 →
      create_jira_customer nm email resp searchResp
        = (resp.accountId, [Call.createCustomer nm email])) ∧
    (resp.status = 400 ∨ resp.status = 409 →
      (create_jira_customer nm email resp searchResp).1 = (search_jira_user email searchResp).1 ∧
      (searchResp = none → (create_jira_customer nm email resp searchResp).1 = none) ∧
      (∀ users, searchResp = some users →
        ((∀ u ∈ users, emailMatches email u = false) →
          (create_jira_customer nm email resp searchResp).1 = none) ∧
        (∀ u, users.find? (emailMatches email) = some u →
          (create_jira_customer nm email resp searchResp).1 = u.accountId))) ∧
    (resp.status ≠ 201 → ¬(resp.status = 400 ∨ resp.status = 409) →
      (create_jira_customer nm email resp searchResp).1 = none) := by
  refine ⟨?_, ?_, ?_⟩
  · intro h201
    simp [create_jira_customer, h201]
  · intro hconf
    have h201 : ¬ resp.status = 201 := by rcases hconf with h | h <;> omega
    have hbase : (create_jira_customer nm email resp searchResp).1
        = (search_jira_user email searchResp).1 := by
      simp [create_jira_customer, h201, hconf]
    refine ⟨hbase, ?_, ?_⟩
    · intro hs
      rw [hbase, hs]
      rfl
    · intro users hs
      constructor
      · intro hno
        have hfind : users.find? (emailMatches email) = none := by
          rw [List.find?_eq_none]
          intro u hu
          simp [hno u hu]
        rw [hbase, hs]
        simp [search_jira_user, hfind]
      · intro u hfound
        rw [hbase, hs]
        simp [search_jira_user, hfound]
  · intro h201 hother
    simp [create_jira_customer, h201, hother]

/-- Witness for C5: a 201 creation returns the body accountId. -/
theorem cust_resolution_spec_witness :
    (⟨201, some "A1"⟩ : CustCreateResp).status = 201 ∧
    create_jira_customer "Jane" "jane@acme.com" ⟨201, some "A1"⟩ none
      = (some "A1", [Call.createCustomer "Jane" "jane@acme.com"]) :=
  ⟨rfl, (cust_resolution_spec "Jane" "jane@acme.com" ⟨201, some "A1"⟩ none).1 rfl⟩

/-- **C8.** A contact whose email strips to empty contributes no network
call and no accumulated customer id — it is dropped silently, whatever its
role text, and the rest of the contact list is processed as if it were
absent. -/
theorem empty_email_dropped (env : AccountEnv) (c : Contact) (rest : List Contact)
    (h : pyStrip (c.Email.getD "") = "") :
    processContact env c = ([], none) ∧
    processContacts env (c :: rest) = processContacts env rest := by
  have h1 : processContact env c = ([], none) := by
    simp [processContact, h]
  exact ⟨h1, by simp [processContacts, h1]⟩

/-- Witness for C8: an emailless contact with signatory role text is dropped. -/
theorem empty_email_dropped_witness :
    pyStrip ((none : Option String).getD "") = "" ∧
    processContact witEnv ⟨some "Jane", none, none, none, some "Authorized Signatory", none⟩
      = ([], none) :=
  ⟨by decide,
   (empty_email_dropped witEnv
     ⟨some "Jane", none, none, none, some "Authorized Signatory", none⟩ [] (by decide)).1⟩

/-- **C10.** The batch attach never inspects the HTTP response (its result
is the same for any two statuses), makes no call for an empty identity
list, and exactly one POST otherwise. -/
theorem attach_batch_spec (orgId : String) (ids : List String) (s1 s2 : Nat) :
    add_users_to_org orgId ids s1 = add_users_to_org orgId ids s2 ∧
    (ids = [] → add_users_to_org orgId ids s1 = []) ∧
    (ids ≠ [] → add_users_to_org orgId ids s1 = [Call.addUsersToOrg orgId ids]) := by
  refine ⟨rfl, ?_, ?_⟩
  · intro h
    simp [add_users_to_org, h]
  · intro h
    have he : ids.isEmpty = false := by simpa using h
    simp [add_users_to_org, he]

/-- Witness for C10: one POST for a singleton list, any status. -/
theorem attach_batch_spec_witness :
    add_users_to_org "O" ["A"] 200 = add_users_to_org "O" ["A"] 500 ∧
    (["A"] ≠ ([] : List String) ∧
     add_users_to_org "O" ["A"] 200 = [Call.addUsersToOrg "O" ["A"]]) :=
  ⟨(attach_batch_spec "O" ["A"] 200 500).1,
   by decide, (attach_batch_spec "O" ["A"] 200 500).2.2 (by decide)⟩

/-- **C7.** The run coordinator always returns a structured result: a
token or account-fetch failure yields the error result with its message;
otherwise the ok result with the count of fetched accounts, whatever the
individual accounts' environments (their failures are contained inside
`process_single_account`). -/
theorem run_coordinator_spec (tokenRes : Except String (String × String))
    (accountsRes : Except String (List (Account × AccountEnv))) :
    (∀ e, tokenRes = .error e →
      lambda_handler tokenRes accountsRes = (.error e, [])) ∧
    (∀ t e, tokenRes = .ok t → accountsRes = .error e →
      lambda_handler tokenRes accountsRes = (.error e, [])) ∧
    (∀ t accs, tokenRes = .ok t → accountsRes = .ok accs →
      (lambda_handler tokenRes accountsRes).1 = .ok accs.length) := by
  refine ⟨?_, ?_, ?_⟩ <;> intros <;> subst_vars <;> rfl

/-- Witness for C7: a credential failure is reported, not raised. -/
theorem run_coordinator_spec_witness :
    (Except.error "boom" : Except String (String × String)) = Except.error "boom" ∧
    lambda_handler (Except.error "boom") (Except.ok []) = (.error "boom", []) :=
  ⟨rfl, (run_coordinator_spec (Except.error "boom") (Except.ok [])).1 "boom" rfl⟩

theorem create_org_calls_resolution (nm : String) (resp : CreateOrgResp)
    (pages : List OrgPage) :
    ∀ call ∈ (create_org nm resp pages).2, isOrgResolutionCall call = true := by
  intro call h
  by_cases h201 : resp.status = 201
  · simp [create_org, h201] at h
    subst h
    rfl
  · by_cases hconf : resp.status = 400 ∨ resp.status = 409
    · simp [create_org, h201, hconf] at h
      rcases h with h | h
      · subst h
        rfl
      · obtain ⟨st, heq⟩ := findOrgGo_calls_listOrgs _ _ _ _ h
        subst heq
        rfl
    · simp [create_org, h201, hconf] at h
      subst h
      rfl

/-- **C6.** When organization resolution yields no identifier, the account
pipeline stops at once: the trace is exactly the resolution's own calls
(no desk link, no org field write, no contact fetch, no customer work),
and the run still processes every account and reports the full count. -/
theorem org_failure_terminal (acc : Account) (env : AccountEnv)
    (h : (create_org acc.Name env.createResp env.orgPages).1 = none) :
    process_single_account acc env = (create_org acc.Name env.createResp env.orgPages).2 ∧
    (∀ call ∈ process_single_account acc env, isOrgResolutionCall call = true) ∧
    (∀ (t : String × String) (accs : List (Account × AccountEnv)),
      (lambda_handler (.ok t) (.ok accs)).1 = .ok accs.length) := by
  have h1 : process_single_account acc env
      = (create_org acc.Name env.createResp env.orgPages).2 := by
    simp [process_single_account, h, truthyStr]
  refine ⟨h1, ?_, fun t accs => rfl⟩
  rw [h1]
  exact create_org_calls_resolution _ _ _

theorem orgUpdateGo_success (oid f : String) (resp : Nat → HttpOutcome) (attempt r : Nat)
    (h : resp attempt = .status 200) :
    orgUpdateGo oid f resp attempt (r + 1) = (true, [Call.orgDetail oid f], []) := by
  simp [orgUpdateGo, h]

theorem orgUpdateGo_break (oid f : String) (resp : Nat → HttpOutcome) (attempt r : Nat)
    (h1 : retryable (resp attempt) = false) (h2 : resp attempt ≠ .status 200) :
    orgUpdateGo oid f resp attempt (r + 1) = (false, [Call.orgDetail oid f], []) := by
  cases hresp : resp attempt with
  | exn m =>
    rw [hresp] at h1
    simp [retryable] at h1
  | status code =>
    rw [hresp] at h1 h2
    simp [retryable] at h1
    have h200 : ¬ code = 200 := fun hc => h2 (by rw [hc])
    simp [orgUpdateGo, hresp, h200, h1.1, h1.2]

theorem orgUpdateGo_retry_step (oid f : String) (resp : Nat → HttpOutcome) (attempt r : Nat)
    (h : retryable (resp attempt) = true) :
    orgUpdateGo oid f resp attempt (r + 1) =
      ((orgUpdateGo oid f resp (attempt + 1) r).1,
       Call.orgDetail oid f :: (orgUpdateGo oid f resp (attempt + 1) r).2.1,
       orgRetrySleep (resp attempt) attempt :: (orgUpdateGo oid f resp (attempt + 1) r).2.2) := by
  cases hresp : resp attempt with
  | exn m => simp [orgUpdateGo, hresp, orgRetrySleep]
  | status code =>
    rw [hresp] at h
    simp [retryable] at h
    rcases h with h | h <;> subst h <;> simp [orgUpdateGo, hresp, orgRetrySleep]

theorem orgUpdateGo_skip (oid f : String) (resp : Nat → HttpOutcome) :
    ∀ (k attempt remaining : Nat), k ≤ remaining →
      (∀ j, attempt ≤ j → j < attempt + k → retryable (resp j) = true) →
      orgUpdateGo oid f resp attempt remaining =
        ((orgUpdateGo oid f resp (attempt + k) (remaining - k)).1,
         List.replicate k (Call.orgDetail oid f)
           ++ (orgUpdateGo oid f resp (attempt + k) (remaining - k)).2.1,
         (List.range' attempt k).map (fun j => orgRetrySleep (resp j) j)
           ++ (orgUpdateGo oid f resp (attempt + k) (remaining - k)).2.2) := by
  intro k
  induction k with
  | zero => intro attempt remaining _ _; simp
  | succ n ih =>
    intro attempt remaining hk hret
    obtain ⟨r, rfl⟩ : ∃ r, remaining = r + 1 := ⟨remaining - 1, by omega⟩
    rw [orgUpdateGo_retry_step oid f resp attempt r (hret attempt (le_refl _) (by omega))]
    rw [ih (attempt + 1) r (by omega) (fun j hj1 hj2 => hret j (by omega) (by omega))]
    have e1 : attempt + 1 + n = attempt + (n + 1) := by omega
    have e2 : r - n = r + 1 - (n + 1) := by omega
    rw [e1, e2]
    simp [List.replicate_succ, List.range'_succ]

theorem orgUpdateGo_calls_le (oid f : String) (resp : Nat → HttpOutcome) :
    ∀ (remaining attempt : Nat),
      (orgUpdateGo oid f resp attempt remaining).2.1.length ≤ remaining := by
  intro remaining
  induction remaining with
  | zero => intro attempt; simp [orgUpdateGo]
  | succ r ih =>
    intro attempt
    have hih := ih (attempt + 1)
    cases hresp : resp attempt with
    | exn m =>
      simp [orgUpdateGo, hresp]
      omega
    | status code =>
      by_cases h200 : code = 200
      · simp [orgUpdateGo, hresp, h200]
      · by_cases h404 : code = 404
        · simp [orgUpdateGo, hresp, h200, h404]
          omega
        · by_cases h429 : code = 429
          · simp [orgUpdateGo, hresp, h200, h404, h429]
            omega
          · simp [orgUpdateGo, hresp, h200, h404, h429]

theorem custUpdateGo_success (cid f : String) (resp : Nat → HttpOutcome) (attempt r : Nat)
    (h : resp attempt = .status 200) :
    custUpdateGo cid f resp attempt (r + 1) = (true, [Call.custDetail cid f], []) := by
  simp [custUpdateGo, h]

theorem custUpdateGo_break (cid f : String) (resp : Nat → HttpOutcome) (attempt r : Nat)
    (h1 : retryable (resp attempt) = false) (h2 : resp attempt ≠ .status 200) :
    custUpdateGo cid f resp attempt (r + 1) = (false, [Call.custDetail cid f], []) := by
  cases hresp : resp attempt with
  | exn m =>
    rw [hresp] at h1
    simp [retryable] at h1
  | status code =>
    rw [hresp] at h1 h2
    simp [retryable] at h1
    have h200 : ¬ code = 200 := fun hc => h2 (by rw [hc])
    simp [custUpdateGo, hresp, h200, h1.1, h1.2]

theorem custUpdateGo_retry_step (cid f : String) (resp : Nat → HttpOutcome) (attempt r : Nat)
    (h : retryable (resp attempt) = true) :
    custUpdateGo cid f resp attempt (r + 1) =
      ((custUpdateGo cid f resp (attempt + 1) r).1,
       Call.custDetail cid f :: (custUpdateGo cid f resp (attempt + 1) r).2.1,
       custRetrySleep (resp attempt) attempt :: (custUpdateGo cid f resp (attempt + 1) r).2.2) := by
  cases hresp : resp attempt with
  | exn m => simp [custUpdateGo, hresp, custRetrySleep]
  | status code =>
    rw [hresp] at h
    simp [retryable] at h
    rcases h with h | h <;> subst h <;> simp [custUpdateGo, hresp, custRetrySleep]

theorem custUpdateGo_skip (cid f : String) (resp : Nat → HttpOutcome) :
    ∀ (k attempt remaining : Nat), k ≤ remaining →
      (∀ j, attempt ≤ j → j < attempt + k → retryable (resp j) = true) →
      custUpdateGo cid f resp attempt remaining =
        ((custUpdateGo cid f resp (attempt + k) (remaining - k)).1,
         List.replicate k (Call.custDetail cid f)
           ++ (custUpdateGo cid f resp (attempt + k) (remaining - k)).2.1,
         (List.range' attempt k).map (fun j => custRetrySleep (resp j) j)
           ++ (custUpdateGo cid f resp (attempt + k) (remaining - k)).2.2) := by
  intro k
  induction k with
  | zero => intro attempt remaining _ _; simp
  | succ n ih =>
    intro attempt remaining hk hret
    obtain ⟨r, rfl⟩ : ∃ r, remaining = r + 1 := ⟨remaining - 1, by omega⟩
    rw [custUpdateGo_retry_step cid f resp attempt r (hret attempt (le_refl _) (by omega))]
    rw [ih (attempt + 1) r (by omega) (fun j hj1 hj2 => hret j (by omega) (by omega))]
    have e1 : attempt + 1 + n = attempt + (n + 1) := by omega
    have e2 : r - n = r + 1 - (n + 1) := by omega
    rw [e1, e2]
    simp [List.replicate_succ, List.range'_succ]

theorem custUpdateGo_calls_le (cid f : String) (resp : Nat → HttpOutcome) :
    ∀ (remaining attempt : Nat),
      (custUpdateGo cid f resp attempt remaining).2.1.length ≤ remaining := by
  intro remaining
  induction remaining with
  | zero => intro attempt; simp [custUpdateGo]
  | succ r ih =>
    intro attempt
    have hih := ih (attempt + 1)
    cases hresp : resp attempt with
    | exn m =>
      simp [custUpdateGo, hresp]
      omega
    | status code =>
      by_cases h200 : code = 200
      · simp [custUpdateGo, hresp, h200]
      · by_cases h404 : code = 404
        · simp [custUpdateGo, hresp, h200, h404]
          omega
        · by_cases h429 : code = 429
          · simp [custUpdateGo, hresp, h200, h404, h429]
            omega
          · simp [custUpdateGo, hresp, h200, h404, h429]

theorem org_update_spec (oid f : String) (v : Option String) (ro : Nat → HttpOutcome)
    (hv : truthyStr v = true) :
    (update_org_detail_field oid f v ro).2.1.length ≤ 3 ∧
    (update_org_detail_field oid f v ro).2.2.head? = some 1 ∧
    (∀ i, 1 ≤ i → i ≤ 3 → (∀ j, 1 ≤ j → j < i → retryable (ro j) = true) →
      ((ro i = .status 200 →
        update_org_detail_field oid f v ro =
          (true, List.replicate i (Call.orgDetail oid f),
           (1 : ℚ) :: (List.range' 1 (i - 1)).map (fun j => orgRetrySleep (ro j) j))) ∧
       (retryable (ro i) = false → ro i ≠ .status 200 →
        update_org_detail_field oid f v ro =
          (false, List.replicate i (Call.orgDetail oid f),
           (1 : ℚ) :: (List.range' 1 (i - 1)).map (fun j => orgRetrySleep (ro j) j))))) ∧
    ((∀ j, 1 ≤ j → j ≤ 3 → retryable (ro j) = true) →
      update_org_detail_field oid f v ro =
        (false, List.replicate 3 (Call.orgDetail oid f),
         (1 : ℚ) :: (List.range' 1 3).map (fun j => orgRetrySleep (ro j) j))) := by
  have hupd : update_org_detail_field oid f v ro =
      ((orgUpdateGo oid f ro 1 3).1, (orgUpdateGo oid f ro 1 3).2.1,
       (1 : ℚ) :: (orgUpdateGo oid f ro 1 3).2.2) := by
    simp [update_org_detail_field, hv]
  refine ⟨?_, ?_, ?_, ?_⟩
  · rw [hupd]
    exact orgUpdateGo_calls_le oid f ro 3 1
  · rw [hupd]
    rfl
  · intro i h1 h3 hret
    obtain ⟨k, rfl⟩ : ∃ k, i = k + 1 := ⟨i - 1, by omega⟩
    have hskip := orgUpdateGo_skip oid f ro k 1 3 (by omega)
      (fun j hj1 hj2 => hret j hj1 (by omega))
    have e1 : 1 + k = k + 1 := Nat.add_comm 1 k
    have e2 : 3 - k = (2 - k) + 1 := by omega
    rw [e1, e2] at hskip
    constructor
    · intro h200
      rw [hupd, hskip, orgUpdateGo_success oid f ro (k + 1) (2 - k) h200]
      simp [List.replicate_succ']
    · intro hnr h200
      rw [hupd, hskip, orgUpdateGo_break oid f ro (k + 1) (2 - k) hnr h200]
      simp [List.replicate_succ']
  · intro hall
    have hskip := orgUpdateGo_skip oid f ro 3 1 3 (le_refl 3)
      (fun j hj1 hj2 => hall j hj1 (by omega))
    rw [hupd, hskip]
    simp [orgUpdateGo]

theorem cust_update_spec (cid g : String) (v : Option String) (rc : Nat → HttpOutcome)
    (hv : truthyStr v = true) :
    (update_customer_detail_field cid g v rc).2.1.length ≤ 5 ∧
    (update_customer_detail_field cid g v rc).2.2.head? = some (0.5 : ℚ) ∧
    (∀ i, 1 ≤ i → i ≤ 5 → (∀ j, 1 ≤ j → j < i → retryable (rc j) = true) →
      ((rc i = .status 200 →
        update_customer_detail_field cid g v rc =
          (true, List.replicate i (Call.custDetail cid g),
           (0.5 : ℚ) :: (List.range' 1 (i - 1)).map (fun j => custRetrySleep (rc j) j))) ∧
       (retryable (rc i) = false → rc i ≠ .status 200 →
        update_customer_detail_field cid g v rc =
          (false, List.replicate i (Call.custDetail cid g),
           (0.5 : ℚ) :: (List.range' 1 (i - 1)).map (fun j => custRetrySleep (rc j) j))))) ∧
    ((∀ j, 1 ≤ j → j ≤ 5 → retryable (rc j) = true) →
      update_customer_detail_field cid g v rc =
        (false, List.replicate 5 (Call.custDetail cid g),
         (0.5 : ℚ) :: (List.range' 1 5).map (fun j => custRetrySleep (rc j) j))) := by
  have hupd : update_customer_detail_field cid g v rc =
      ((custUpdateGo cid g rc 1 5).1, (custUpdateGo cid g rc 1 5).2.1,
       (0.5 : ℚ) :: (custUpdateGo cid g rc 1 5).2.2) := by
    simp [update_customer_detail_field, hv]
  refine ⟨?_, ?_, ?_, ?_⟩
  · rw [hupd]
    exact custUpdateGo_calls_le cid g rc 5 1
  · rw [hupd]
    rfl
  · intro i h1 h5 hret
    obtain ⟨k, rfl⟩ : ∃ k, i = k + 1 := ⟨i - 1, by omega⟩
    have hskip := custUpdateGo_skip cid g rc k 1 5 (by omega)
      (fun j hj1 hj2 => hret j hj1 (by omega))
    have e1 : 1 + k = k + 1 := Nat.add_comm 1 k
    have e2 : 5 - k = (4 - k) + 1 := by omega
    rw [e1, e2] at hskip
    constructor
    · intro h200
      rw [hupd, hskip, custUpdateGo_success cid g rc (k + 1) (4 - k) h200]
      simp [List.replicate_succ']
    · intro hnr h200
      rw [hupd, hskip, custUpdateGo_break cid g rc (k + 1) (4 - k) hnr h200]
      simp [List.replicate_succ']
  · intro hall
    have hskip := custUpdateGo_skip cid g rc 5 1 5 (le_refl 5)
      (fun j hj1 hj2 => hall j hj1 (by omega))
    rw [hupd, hskip]
    simp [custUpdateGo]

/-- **C2.** For a truthy value the detail-field setters sleep a fixed
initial delay (1s for organizations, 0.5s for customers) and attempt the
PUT at most 3 times (organizations) respectively 5 times (customers);
within the budget, an attempt reached after only retryable outcomes
returns `True` at once on a 200, retries after a backoff proportional to
the attempt number on a 404 (`attempt * 1.5`s / `attempt * 2`s) and after
a fixed 5s on a 429, stops immediately on any other status, and both
budget exhaustion and a non-retryable status yield `False`. -/
theorem field_update_retry_spec (v : Option String) (hv : truthyStr v = true)
    (oid cid f g : String) (ro rc : Nat → HttpOutcome) :
    ((update_org_detail_field oid f v ro).2.1.length ≤ 3 ∧
     (update_org_detail_field oid f v ro).2.2.head? = some 1 ∧
     (∀ i, 1 ≤ i → i ≤ 3 → (∀ j, 1 ≤ j → j < i → retryable (ro j) = true) →
       ((ro i = .status 200 →
         update_org_detail_field oid f v ro =
           (true, List.replicate i (Call.orgDetail oid f),
            (1 : ℚ) :: (List.range' 1 (i - 1)).map (fun j => orgRetrySleep (ro j) j))) ∧
        (retryable (ro i) = false → ro i ≠ .status 200 →
         update_org_detail_field oid f v ro =
           (false, List.replicate i (Call.orgDetail oid f),
            (1 : ℚ) :: (List.range' 1 (i - 1)).map (fun j => orgRetrySleep (ro j) j))))) ∧
     ((∀ j, 1 ≤ j → j ≤ 3 → retryable (ro j) = true) →
       update_org_detail_field oid f v ro =
         (false, List.replicate 3 (Call.orgDetail oid f),
          (1 : ℚ) :: (List.range' 1 3).map (fun j => orgRetrySleep (ro j) j)))) ∧
    ((update_customer_detail_field cid g v rc).2.1.length ≤ 5 ∧
     (update_customer_detail_field cid g v rc).2.2.head? = some (0.5 : ℚ) ∧
     (∀ i, 1 ≤ i → i ≤ 5 → (∀ j, 1 ≤ j → j < i → retryable (rc j) = true) →
       ((rc i = .status 200 →
         update_customer_detail_field cid g v rc =
           (true, List.replicate i (Call.custDetail cid g),
            (0.5 : ℚ) :: (List.range' 1 (i - 1)).map (fun j => custRetrySleep (rc j) j))) ∧
        (retryable (rc i) = false → rc i ≠ .status 200 →
         update_customer_detail_field cid g v rc =
           (false, List.replicate i (Call.custDetail cid g),
            (0.5 : ℚ) :: (List.range' 1 (i - 1)).map (fun j => custRetrySleep (rc j) j))))) ∧
     ((∀ j, 1 ≤ j → j ≤ 5 → retryable (rc j) = true) →
       update_customer_detail_field cid g v rc =
         (false, List.replicate 5 (Call.custDetail cid g),
          (0.5 : ℚ) :: (List.range' 1 5).map (fun j => custRetrySleep (rc j) j)))) :=
  ⟨org_update_spec oid f v ro hv, cust_update_spec cid g v rc hv⟩

/-- Witness for C2: with a truthy value and an immediate 200 the org
update succeeds on the first of its (at most 3) attempts. -/
theorem field_update_retry_spec_witness :
    truthyStr (some "x") = true ∧
    update_org_detail_field "o" "f" (some "x") (fun _ => HttpOutcome.status 200) =
      (true, List.replicate 1 (Call.orgDetail "o" "f"),
       (1 : ℚ) :: (List.range' 1 (1 - 1)).map
         (fun j => orgRetrySleep ((fun _ => HttpOutcome.status 200) j) j)) :=
  ⟨by decide,
   ((field_update_retry_spec (some "x") (by decide) "o" "c" "f" "g"
       (fun _ => HttpOutcome.status 200) (fun _ => HttpOutcome.status 200)).1.2.2.1
     1 (le_refl 1) (by omega) (fun j hj1 hj2 => by omega)).1 rfl⟩

/-- Witness for C6: an account whose org creation gets a 500 is skipped. -/
theorem org_failure_terminal_witness :
    (create_org witAcc.Name witFailEnv.createResp witFailEnv.orgPages).1 = none ∧
    process_single_account witAcc witFailEnv
      = (create_org witAcc.Name witFailEnv.createResp witFailEnv.orgPages).2 :=
  ⟨by decide, (org_failure_terminal witAcc witFailEnv (by decide)).1⟩
